import Mathlib

/- A verification development for the wl-scanner code generator.

   The definitions below are a shallow embedding of the two Go source files
   of the repository (wl-scanner.go and scanner.go): the name-casing helpers
   (CamelCase, snakeCase), the name registry (wlNames map), the request and
   event processing passes (GoInterface.ProcessRequests / ProcessEvents), the
   semantics of the generated templates (requestTemplate, eventTemplate,
   ifaceAddRemoveHandlerTemplate, ifaceDispatchTemplate), the enum-reference
   naming helper (enumArgName, from scanner.go), and the post-write formatting
   step (fmtFile).  Go maps are modelled as association lists with
   most-recent-first lookup and the zero value for a missing key; Go slices
   are modelled as Lean lists by value. -/

namespace WlScanner

/-- Word separator test of Go strings.Title, restricted to ASCII (protocol
identifiers are ASCII): ASCII alphanumerics and the underscore are not
separators, every other character is. -/
def goIsSeparator (c : Char) : Bool :=
  !(c.isAlpha || c.isDigit || c == '_')

/-- Go strings.Title over a character list: a character is title-cased
exactly when the previous character (initially a space) is a separator. -/
def goTitleAux : Char → List Char → List Char
  | _, [] => []
  | prev, c :: cs => (if goIsSeparator prev then c.toUpper else c) :: goTitleAux c cs

/-- Go strings.Title (initial previous character is a space). -/
def goTitle (s : List Char) : List Char :=
  goTitleAux (' ') s

/-- strings.Replace(s, "_", " ", -1): replace every underscore by a space. -/
def replaceUnderscore (s : List Char) : List Char :=
  s.map (fun c => if c == '_' then ' ' else c)

/-- strings.Replace(s, " ", "", -1): remove every space. -/
def removeSpaces (s : List Char) : List Char :=
  s.filter (fun c => !(c == ' '))

/-- strings.HasPrefix(s, "wl_"). -/
def startsWithWl : List Char → Bool
  | 'w' :: 'l' :: '_' :: _ => true
  | _ => false

/-- The namespace-prefix stripping shared by CamelCase and snakeCase:
if the name starts with "wl_" drop that prefix, otherwise leave it alone. -/
def stripWlL (s : List Char) : List Char :=
  if startsWithWl s then s.drop 3 else s

/-- String-level wrapper of the prefix stripping. -/
def stripWl (s : String) : String :=
  ⟨stripWlL s.data⟩

/-- CamelCase from wl-scanner.go on a character list: strip the "wl_" prefix,
turn underscores into spaces, strings.Title, then remove the spaces. -/
def camelCaseL (s : List Char) : List Char :=
  removeSpaces (goTitle (replaceUnderscore (stripWlL s)))

/-- func CamelCase(wlName string) string. -/
def CamelCase (s : String) : String :=
  ⟨camelCaseL s.data⟩

/-- strings.Split with a one-character separator: Go semantics, so the
empty input yields one empty field and separators delimit (possibly empty)
fields. -/
def goSplit (sep : Char) : List Char → List (List Char)
  | [] => [[]]
  | c :: cs =>
    let r := goSplit sep cs
    if c == sep then [] :: r
    else
      match r with
      | [] => [[c]]
      | h :: t => (c :: h) :: t

/-- snakeCase from wl-scanner.go on a character list: strip the "wl_" prefix,
turn underscores into spaces, split on spaces, keep the first part as is,
strings.Title the later parts, and join with the empty separator. -/
def snakeCaseL (s : List Char) : List Char :=
  match goSplit (' ') (replaceUnderscore (stripWlL s)) with
  | [] => []
  | p :: rest => p ++ (rest.map goTitle).flatten

/-- func snakeCase(wlName string) string. -/
def snakeCase (s : String) : String :=
  ⟨snakeCaseL s.data⟩

/-- strings.Join(elems, sep). -/
def goJoin (sep : String) : List String → String
  | [] => ""
  | [x] => x
  | x :: xs => x ++ sep ++ goJoin sep xs

/-- Lookup in the wlNames map: Go map read semantics, the zero value "" is
returned for a key that was never registered. Insertions are modelled by
prepending, so the first match is the most recent write. -/
def mapGet (m : List (String × String)) (k : String) : String :=
  match m.find? (fun q => q.1 == k) with
  | some q => q.2
  | none => ""

/-- func caseAndRegister(wlName string) string: store CamelCase(wlName)
under the native name and return it. -/
def caseAndRegister (wlNames : List (String × String)) (wlName : String) :
    List (String × String) × String :=
  ((wlName, CamelCase wlName) :: wlNames, CamelCase wlName)

/- ------------------------------------------------------------------ -/
/- The schema IR (the xml types of wl-scanner.go, attributes the       -/
/- generator reads).                                                   -/
/- ------------------------------------------------------------------ -/

/-- type Arg: name, wire type, interface attribute, enum attribute
(the Interface field is called iface here because Interface names the
schema node type below). -/
structure Arg where
  name : String
  type : String
  iface : String
  enum : String
deriving DecidableEq

/-- type Request: name and argument list. -/
structure Request where
  name : String
  args : List Arg
deriving DecidableEq

/-- type Event: name and argument list. -/
structure Event where
  name : String
  args : List Arg
deriving DecidableEq

/-- type Interface: name and its ordered Requests and Events sequences. -/
structure Interface where
  name : String
  requests : List Request
  events : List Event
deriving DecidableEq

/-- The wlTypes map (primitive wire type names to Go type names); the
membership test of a Go map read with the comma-ok form. -/
def wlTypes? (t : String) : Option String :=
  if t == "int" then some ("int32")
  else if t == "uint" then some ("uint32")
  else if t == "string" then some ("string")
  else if t == "fd" then some ("uintptr")
  else if t == "fixed" then some ("float32")
  else if t == "array" then some ("[]int32")
  else none

/-- wlTypes[t] read without the comma-ok form: the zero value "" for a
missing key. -/
def wlTypesGet (t : String) : String :=
  (wlTypes? t).getD ""

/-- The bufTypesMap map (Go type names to decode-buffer method calls). -/
def bufTypesMap? (t : String) : Option String :=
  if t == "int32" then some ("Int32()")
  else if t == "uint32" then some ("Uint32()")
  else if t == "string" then some ("String()")
  else if t == "float32" then some ("Float32()")
  else if t == "[]int32" then some ("Array()")
  else if t == "uintptr" then some ("FD()")
  else none

/- ------------------------------------------------------------------ -/
/- GoInterface.ProcessRequests (wl-scanner.go lines 268-335).          -/
/- ------------------------------------------------------------------ -/

/-- The three per-request accumulators of ProcessRequests (returns, params,
sendRequestArgs) together with the HasNewId / NewIdInterface fields that the
argument loop sets on the GoRequest. -/
structure ReqAcc where
  returns : List String
  params : List String
  sendRequestArgs : List String
  hasNewId : Bool
  newIdInterface : String
deriving DecidableEq

/-- The initial accumulator state (empty slices, zero values). -/
def initReqAcc : ReqAcc :=
  { returns := [], params := [], sendRequestArgs := [], hasNewId := false,
    newIdInterface := "" }

/-- One iteration of the argument loop of ProcessRequests.  Note the first
branch reproduces the source line `sendRequestArgs = append(params,
"Proxy(ret)")` literally: the new send-argument slice is built from the
params slice, not from the sendRequestArgs accumulated so far. -/
def processArg (wlNames : List (String × String)) (acc : ReqAcc) (arg : Arg) : ReqAcc :=
  if arg.type = "new_id" then
    if arg.iface ≠ "" then
      { acc with
        newIdInterface := mapGet wlNames arg.iface,
        sendRequestArgs := acc.params ++ [("Proxy(ret)")],
        hasNewId := true,
        returns := acc.returns ++ [("*") ++ mapGet wlNames arg.iface] }
    else
      { acc with
        sendRequestArgs := acc.sendRequestArgs ++ [("iface"), ("version"), arg.name],
        params := acc.params ++
          [("iface string"), ("version uint32"), arg.name ++ (" Proxy")] }
  else if arg.type = "object" ∧ arg.iface ≠ "" then
    { acc with
      params := acc.params ++ [arg.name ++ (" *") ++ mapGet wlNames arg.iface],
      sendRequestArgs := acc.sendRequestArgs ++ [arg.name] }
  else
    { acc with
      sendRequestArgs := acc.sendRequestArgs ++ [arg.name],
      params := acc.params ++ [arg.name ++ (" ") ++ wlTypesGet arg.type] }

/-- type GoRequest (the fields the templates consume). -/
structure GoRequest where
  name : String
  order : Nat
  params : String
  returns : String
  args : String
  hasNewId : Bool
  newIdInterface : String
deriving DecidableEq

/-- The body of the per-request loop of ProcessRequests: run the argument
loop, then assemble Params, Args and Returns exactly as the source does. -/
def processRequest (wlNames : List (String × String)) (order : Nat)
    (wlReq : Request) : GoRequest :=
  let acc := wlReq.args.foldl (processArg wlNames) initReqAcc
  { name := CamelCase wlReq.name,
    order := order,
    params := goJoin (",") acc.params,
    args := if acc.sendRequestArgs.length > 0
            then (",") ++ goJoin (",") acc.sendRequestArgs
            else "",
    returns := if acc.returns.length > 0
               then ("(") ++ goJoin (",") acc.returns ++ (" , error)")
               else ("error"),
    hasNewId := acc.hasNewId,
    newIdInterface := acc.newIdInterface }

/-- `for order, wlReq := range i.WlInterface.Requests` starting at a given
index. -/
def processRequestsFrom (wlNames : List (String × String)) (order : Nat) :
    List Request → List GoRequest
  | [] => []
  | r :: rs => processRequest wlNames order r :: processRequestsFrom wlNames (order + 1) rs

/-- GoInterface.ProcessRequests: every request paired with its 0-based
position as its Order (= wire opcode). -/
def processRequests (wlNames : List (String × String)) (i : Interface) :
    List GoRequest :=
  processRequestsFrom wlNames 0 i.requests

/-- The sendRequest call emitted by requestTemplate:
`p.Context().sendRequest(p,{{.Order}}{{.Args}})`. -/
def requestSendCall (req : GoRequest) : String :=
  ("p.Context().sendRequest(p,") ++ toString req.order ++ req.args ++ (")")

/-- The method body emitted by requestTemplate: when HasNewId is set the new
object is constructed first and returned together with the sendRequest
error, otherwise the bare error is returned. -/
def requestBodyCode (req : GoRequest) : String :=
  if req.hasNewId then
    ("ret := New") ++ req.newIdInterface ++ ("(p.Context())\n") ++
      ("return ret , ") ++ requestSendCall req
  else
    ("return ") ++ requestSendCall req

/- ------------------------------------------------------------------ -/
/- Per-argument contribution views of the ProcessRequests loop, used   -/
/- to state and prove facts about an argument at any list position.    -/
/- ------------------------------------------------------------------ -/

/-- What one argument appends to the params accumulator (the typed
new-object branch appends nothing to params). -/
def paramDelta (wlNames : List (String × String)) (arg : Arg) : List String :=
  if arg.type = "new_id" then
    if arg.iface ≠ "" then []
    else [("iface string"), ("version uint32"), arg.name ++ (" Proxy")]
  else if arg.type = "object" ∧ arg.iface ≠ "" then
    [arg.name ++ (" *") ++ mapGet wlNames arg.iface]
  else
    [arg.name ++ (" ") ++ wlTypesGet arg.type]

/-- What one argument appends to the returns accumulator (only a typed
new-object argument contributes). -/
def returnDelta (wlNames : List (String × String)) (arg : Arg) : List String :=
  if arg.type = "new_id" then
    if arg.iface ≠ "" then [("*") ++ mapGet wlNames arg.iface] else []
  else []

/-- Whether one argument switches HasNewId on. -/
def newIdFlag (arg : Arg) : Bool :=
  if arg.type = "new_id" then (if arg.iface ≠ "" then true else false) else false

/- ------------------------------------------------------------------ -/
/- GoInterface.ProcessEvents (wl-scanner.go lines 337-389).            -/
/- ------------------------------------------------------------------ -/

/-- type GoArg: the generated event-record field name (Name, CamelCase), the
camelCase variant (PName, snakeCase), the Go type and the decode-buffer
method. -/
structure GoArg where
  name : String
  type : String
  pname : String
  bufMethod : String
deriving DecidableEq

/-- type GoEvent. -/
structure GoEvent where
  name : String
  ifaceName : String
  pname : String
  args : List GoArg
deriving DecidableEq

/-- The per-argument body of the ProcessEvents loop: a basic wire type maps
through wlTypes and bufTypesMap (a basic type missing from bufTypesMap is
only logged, leaving BufMethod empty); an object or typed new-object arg
decodes through the context proxy resolver; anything else is a bare Proxy. -/
def processEventArg (wlNames : List (String × String)) (arg : Arg) : GoArg :=
  match wlTypes? arg.type with
  | some t =>
    { name := CamelCase arg.name, pname := snakeCase arg.name,
      type := t, bufMethod := (bufTypesMap? t).getD "" }
  | none =>
    if (arg.type = "object" ∨ arg.type = "new_id") ∧ arg.iface ≠ "" then
      let t := ("*") ++ mapGet wlNames arg.iface
      { name := CamelCase arg.name, pname := snakeCase arg.name,
        type := t,
        bufMethod := ("Proxy(p.Context()).(") ++ t ++ (")") }
    else
      { name := CamelCase arg.name, pname := snakeCase arg.name,
        type := "Proxy", bufMethod := "Proxy(p.Context())" }

/-- One iteration of the event loop of ProcessEvents. -/
def processEvent (wlNames : List (String × String)) (ifaceName : String)
    (wlEv : Event) : GoEvent :=
  { name := CamelCase wlEv.name, pname := snakeCase wlEv.name,
    ifaceName := ifaceName,
    args := wlEv.args.map (processEventArg wlNames) }

/-- GoInterface.ProcessEvents: the generated event list, in Events order. -/
def processEvents (wlNames : List (String × String)) (ifaceName : String)
    (i : Interface) : List GoEvent :=
  i.events.map (processEvent wlNames ifaceName)

/-- The field list of the event record type emitted by eventTemplate:
one field named {{.Name}} of type {{.Type}} per GoArg, in order. -/
def eventStructFields (ev : GoEvent) : List (String × String) :=
  ev.args.map (fun a => (a.name, a.type))

/- ------------------------------------------------------------------ -/
/- Semantics of the generated handler and dispatch code                -/
/- (ifaceAddRemoveHandlerTemplate and ifaceDispatchTemplate).          -/
/- ------------------------------------------------------------------ -/

/-- A runtime handler value; nil is the nil Go interface value. -/
inductive Handler where
  | nil
  | mk (id : Nat)
deriving DecidableEq

/-- The generated Add...Handler method: append the handler to the per-event
list only when it is not nil. -/
def addHandler (hs : List Handler) (h : Handler) : List Handler :=
  if h ≠ Handler.nil then hs ++ [h] else hs

/-- The case labels of the generated Dispatch switch:
`range $i, $event := .Events` gives each event its 0-based index as label,
starting from a given index. -/
def dispatchCasesFrom (i : Nat) : List GoEvent → List (Nat × GoEvent)
  | [] => []
  | e :: es => (i, e) :: dispatchCasesFrom (i + 1) es

/-- The case labels of the generated Dispatch switch, from index 0. -/
def dispatchCases (events : List GoEvent) : List (Nat × GoEvent) :=
  dispatchCasesFrom 0 events

/-- Decoding the wire payload into the event record: the generated body
assigns `ev.{{.Name}} = event.{{.BufMethod}}` field by field, in argument
declaration order, each decode consuming the next wire value. -/
def decodeFields : List GoArg → List Nat → List (String × Nat)
  | [], _ => []
  | _ :: _, [] => []
  | a :: as, v :: vs => (a.name, v) :: decodeFields as vs

/-- Semantics of the generated Dispatch method: a switch on the wire opcode
over the enumerated cases (first matching label wins, no default case); on a
match, when the handler list is non-empty the record is decoded and every
registered handler is invoked with it in registration order.  The result is
the list of performed handler invocations. -/
def dispatch (events : List GoEvent) (handlers : Nat → List Handler)
    (opcode : Nat) (payload : List Nat) : List (Handler × List (String × Nat)) :=
  match (dispatchCases events).find? (fun c => c.1 == opcode) with
  | none => []
  | some c =>
    if (handlers c.1).length > 0 then
      (handlers c.1).map (fun h => (h, decodeFields c.2.args payload))
    else []

/- ------------------------------------------------------------------ -/
/- scanner.go: enumArgName and requestBody.                            -/
/- ------------------------------------------------------------------ -/

/-- Outcome of a generation step that can call log.Fatal. -/
inductive GenResult where
  | ok (s : String)
  | fatal
deriving DecidableEq

/-- func enumArgName(ifaceName, enumName string) string (scanner.go lines
195-205): an undotted reference resolves inside the owning interface; a
dotted reference is split on '.', log.Fatal when the part count is not 2,
and otherwise the two parts are canonicalized and concatenated.
strings.Index(enumName, ".") == -1 is the no-dot test. -/
def enumArgName (ifaceName enumName : String) : GenResult :=
  if enumName.data.contains ('.') then
    match goSplit ('.') enumName.data with
    | [p0, p1] => GenResult.ok (CamelCase ⟨p0⟩ ++ CamelCase ⟨p1⟩)
    | _ => GenResult.fatal
  else
    GenResult.ok (ifaceName ++ CamelCase enumName)

/-- The accumulator of func requestBody (scanner.go lines 389-421):
constructor lines, the send parameters, and whether a typed new object is
returned. -/
structure BodyAcc where
  construct : List String
  params : List String
  hasRet : Bool
deriving DecidableEq

/-- One iteration of the argument loop of requestBody (scanner.go): the
typed new-object argument contributes the constructor line and Proxy(ret)
at its own position; the late-bound new-object contributes iface, version
and its own name; every other argument contributes its name. -/
def requestBodyStep (wlNames : List (String × String)) (acc : BodyAcc)
    (arg : Arg) : BodyAcc :=
  if arg.type = "new_id" then
    if arg.iface ≠ "" then
      { acc with
        construct := acc.construct ++
          [("ret := New") ++ mapGet wlNames arg.iface ++ ("(p.Connection())")],
        params := acc.params ++ [("Proxy(ret)")],
        hasRet := true }
    else
      { acc with params := acc.params ++ [("iface"), ("version"), arg.name] }
  else
    { acc with params := acc.params ++ [arg.name] }

/-- The SendRequest parameter list built by requestBody (scanner.go), in
argument declaration order. -/
def requestBodyParams (wlNames : List (String × String)) (args : List Arg) :
    List String :=
  (args.foldl (requestBodyStep wlNames) { construct := [], params := [], hasRet := false }).params

/- ------------------------------------------------------------------ -/
/- The post-write formatting step (fmtFile, wl-scanner.go 460-472) and -/
/- the tail of main after generation (wl-scanner.go 228-237).          -/
/- ------------------------------------------------------------------ -/

/-- Outcome of func fmtFile: the go executable missing is only logged
(log.Printf and return); a failing `go fmt` run is log.Fatalf. -/
inductive FmtOutcome where
  | formattedOk
  | skippedLogged
  | fatalExit
deriving DecidableEq

/-- func fmtFile, over the two external conditions it branches on. -/
def fmtFile (goFound : Bool) (fmtRunOk : Bool) : FmtOutcome :=
  if goFound = false then FmtOutcome.skippedLogged
  else if fmtRunOk = false then FmtOutcome.fatalExit
  else FmtOutcome.formattedOk

/-- Observable effects of the tail of main. -/
inductive Effect where
  | writeOutput
  | logSkip
  | exitFatal
  | formatted
deriving DecidableEq

/-- The tail of main for a run in which the output file was created: the
buffer is written to the output first, then fmtFile runs. -/
def mainTail (goFound fmtRunOk : Bool) : List Effect :=
  [Effect.writeOutput] ++
    (match fmtFile goFound fmtRunOk with
     | FmtOutcome.skippedLogged => [Effect.logSkip]
     | FmtOutcome.fatalExit => [Effect.exitFatal]
     | FmtOutcome.formattedOk => [Effect.formatted])

/- ------------------------------------------------------------------ -/
/- Concrete schema fragments used by witnesses and counterexamples.    -/
/- ------------------------------------------------------------------ -/

/-- A request whose typed new-object argument references an interface that
was never registered. -/
def c2Req : Request :=
  { name := "create",
    args := [{ name := "id", type := "new_id", iface := "xdg_surface", enum := "" }] }

/-- A registry holding only wl_buffer. -/
def c3Names : List (String × String) := [(("wl_buffer"), ("Buffer"))]

/-- A request whose single argument is a typed new-object. -/
def c3ReqA : Request :=
  { name := "create_buffer",
    args := [{ name := "id", type := "new_id", iface := "wl_buffer", enum := "" }] }

/-- A registry holding only wl_bar. -/
def c4Names : List (String × String) := [(("wl_bar"), ("Bar"))]

/-- A request with a plain wire argument before the typed new-object
argument. -/
def c4Req : Request :=
  { name := "foo",
    args := [{ name := "x", type := "uint", iface := "", enum := "" },
             { name := "id", type := "new_id", iface := "wl_bar", enum := "" }] }

/-- A schema event for the C1 witness. -/
def c1WEv : Event := { name := "enter", args := [] }

/-- A two-request, one-event interface for the C1 witness. -/
def c1WIface : Interface :=
  { name := "wl_pointer",
    requests := [{ name := "set_cursor", args := [] }, { name := "release", args := [] }],
    events := [c1WEv] }

/-- The generated request at index 1 of c1WIface. -/
def c1ReqOut : GoRequest := processRequest [] 1 { name := "release", args := [] }

/-- Handler table for the C1 witness. -/
def c1Handlers : Nat → List Handler := fun _ => [Handler.mk 3]

/-- A generated event argument for the C5 witness. -/
def c5Arg : GoArg :=
  { name := "Serial", type := "uint32", pname := "serial", bufMethod := "Uint32()" }

/-- Generated event at opcode 0 for the C5 witness. -/
def c5Ev0 : GoEvent :=
  { name := "Ping", ifaceName := "ShellSurface", pname := "ping", args := [c5Arg] }

/-- Generated event at opcode 1 for the C5 witness. -/
def c5Ev1 : GoEvent :=
  { name := "Configure", ifaceName := "ShellSurface", pname := "configure", args := [] }

/-- Generated event list for the C5 witness. -/
def c5Events : List GoEvent := [c5Ev0, c5Ev1]

/-- Handler table for the C5 witness: one handler per opcode. -/
def c5Handlers : Nat → List Handler :=
  fun i => if i == 0 then [Handler.mk 1] else [Handler.mk 2]

/-- A schema event with one unsigned argument, for the C7 counterexample. -/
def c7Event : Event :=
  { name := "motion",
    args := [{ name := "some_thing", type := "uint", iface := "", enum := "" }] }

/-- A generated event with no arguments, for the C10 witness. -/
def c10Ev : GoEvent := { name := "Ping", ifaceName := "Shell", pname := "ping", args := [] }

/-- Handler table for the C10 witness. -/
def c10Handlers : Nat → List Handler := fun _ => [Handler.mk 3]

/- ------------------------------------------------------------------ -/
/- Helper lemmas.                                                      -/
/- ------------------------------------------------------------------ -/

/-- Flattening a map whose every image is empty gives the empty list. -/
theorem flatten_map_eq_nil {α β : Type} (f : α → List β) (l : List α)
    (h : ∀ x ∈ l, f x = []) : (l.map f).flatten = [] := by
  induction l with
  | nil => rfl
  | cons x t ih =>
    simp [h x (List.mem_cons_self x t), ih (fun y hy => h y (List.mem_cons_of_mem x hy))]

/-- An argument that is not a new-object contributes nothing to returns. -/
theorem returnDelta_eq_nil (wlNames : List (String × String)) (b : Arg)
    (hb : b.type ≠ "new_id") : returnDelta wlNames b = [] := by
  unfold returnDelta
  rw [if_neg hb]

/-- An argument that is not a new-object does not switch HasNewId on. -/
theorem newIdFlag_eq_false (b : Arg) (hb : b.type ≠ "new_id") : newIdFlag b = false := by
  unfold newIdFlag
  rw [if_neg hb]

/-- A list without new-object arguments has no argument switching HasNewId. -/
theorem any_newIdFlag_false (l : List Arg) (h : ∀ b ∈ l, b.type ≠ "new_id") :
    l.any newIdFlag = false := by
  induction l with
  | nil => rfl
  | cons b t ih =>
    simp [newIdFlag_eq_false b (h b (List.mem_cons_self b t)),
      ih (fun y hy => h y (List.mem_cons_of_mem b hy))]

/-- One loop iteration appends exactly paramDelta to the params slice. -/
theorem processArg_params (wlNames : List (String × String)) (acc : ReqAcc) (a : Arg) :
    (processArg wlNames acc a).params = acc.params ++ paramDelta wlNames a := by
  unfold processArg paramDelta
  split_ifs <;> simp

/-- One loop iteration appends exactly returnDelta to the returns slice. -/
theorem processArg_returns (wlNames : List (String × String)) (acc : ReqAcc) (a : Arg) :
    (processArg wlNames acc a).returns = acc.returns ++ returnDelta wlNames a := by
  unfold processArg returnDelta
  split_ifs <;> simp

/-- One loop iteration ors newIdFlag into HasNewId. -/
theorem processArg_hasNewId (wlNames : List (String × String)) (acc : ReqAcc) (a : Arg) :
    (processArg wlNames acc a).hasNewId = (acc.hasNewId || newIdFlag a) := by
  unfold processArg newIdFlag
  split_ifs <;> simp

/-- The whole argument loop appends the concatenated paramDeltas. -/
theorem foldl_processArg_params (wlNames : List (String × String)) (args : List Arg)
    (acc : ReqAcc) :
    (args.foldl (processArg wlNames) acc).params =
      acc.params ++ (args.map (paramDelta wlNames)).flatten := by
  induction args generalizing acc with
  | nil => simp
  | cons a t ih => simp [ih, processArg_params]

/-- The whole argument loop appends the concatenated returnDeltas. -/
theorem foldl_processArg_returns (wlNames : List (String × String)) (args : List Arg)
    (acc : ReqAcc) :
    (args.foldl (processArg wlNames) acc).returns =
      acc.returns ++ (args.map (returnDelta wlNames)).flatten := by
  induction args generalizing acc with
  | nil => simp
  | cons a t ih => simp [ih, processArg_returns]

/-- The whole argument loop ors all newIdFlags into HasNewId. -/
theorem foldl_processArg_hasNewId (wlNames : List (String × String)) (args : List Arg)
    (acc : ReqAcc) :
    (args.foldl (processArg wlNames) acc).hasNewId =
      (acc.hasNewId || args.any newIdFlag) := by
  induction args generalizing acc with
  | nil => simp
  | cons a t ih => simp [ih, processArg_hasNewId, Bool.or_assoc]

/-- The Returns field of a processed request, as a function of the
per-argument contributions. -/
theorem processRequest_returns (wlNames : List (String × String)) (order : Nat)
    (q : Request) :
    (processRequest wlNames order q).returns =
      if ((q.args.map (returnDelta wlNames)).flatten).length > 0
      then ("(") ++ goJoin (",") ((q.args.map (returnDelta wlNames)).flatten) ++ (" , error)")
      else ("error") := by
  unfold processRequest
  simp [foldl_processArg_returns, initReqAcc]

/-- The Params field of a processed request, as a function of the
per-argument contributions. -/
theorem processRequest_params (wlNames : List (String × String)) (order : Nat)
    (q : Request) :
    (processRequest wlNames order q).params =
      goJoin (",") ((q.args.map (paramDelta wlNames)).flatten) := by
  unfold processRequest
  simp [foldl_processArg_params, initReqAcc]

/-- The HasNewId field of a processed request. -/
theorem processRequest_hasNewId (wlNames : List (String × String)) (order : Nat)
    (q : Request) :
    (processRequest wlNames order q).hasNewId = q.args.any newIdFlag := by
  unfold processRequest
  simp [foldl_processArg_hasNewId, initReqAcc]

/-- Indexing the request loop output: the element at position k is the
request at position k processed with order base + k. -/
theorem processRequestsFrom_get? (wlNames : List (String × String)) (base k : Nat)
    (rs : List Request) :
    (processRequestsFrom wlNames base rs).get? k =
      (rs.get? k).map (fun r => processRequest wlNames (base + k) r) := by
  induction rs generalizing base k with
  | nil => simp [processRequestsFrom]
  | cons r t ih =>
    cases k with
    | zero => simp [processRequestsFrom]
    | succ k =>
      have h1 : base + 1 + k = base + (k + 1) := by omega
      simp only [processRequestsFrom, List.get?]
      rw [ih (base + 1) k, h1]

/-- The switch built from index base finds the label base + k exactly at the
event stored at position k. -/
theorem find?_dispatchCasesFrom (es : List GoEvent) (n k : Nat) (ev : GoEvent)
    (h : es.get? k = some ev) :
    (dispatchCasesFrom n es).find? (fun c => c.1 == n + k) = some (n + k, ev) := by
  induction es generalizing n k with
  | nil => simp [List.get?] at h
  | cons e t ih =>
    cases k with
    | zero =>
      have he : e = ev := by simpa [List.get?] using h
      subst he
      rw [Nat.add_zero, dispatchCasesFrom, List.find?_cons_of_pos _ (by simp)]
    | succ k =>
      rw [dispatchCasesFrom, List.find?_cons_of_neg _ (by simp)]
      have h2 : n + (k + 1) = (n + 1) + k := by omega
      rw [h2]
      exact ih (n + 1) k (by simpa [List.get?] using h)

/-- A label at or past the end of the switch matches no case. -/
theorem find?_dispatchCasesFrom_none (es : List GoEvent) (n j : Nat)
    (h : n + es.length ≤ j) :
    (dispatchCasesFrom n es).find? (fun c => c.1 == j) = none := by
  induction es generalizing n with
  | nil => rfl
  | cons e t ih =>
    have h' : n + (t.length + 1) ≤ j := by simpa using h
    rw [dispatchCasesFrom, List.find?_cons_of_neg _ (by simp; omega)]
    exact ih (n + 1) (by omega)

/-- Dispatching an opcode that indexes an event invokes exactly that event's
registered handlers, in registration order, with the decoded record. -/
theorem dispatch_eq_of_get? (events : List GoEvent) (handlers : Nat → List Handler)
    (payload : List Nat) (k : Nat) (ev : GoEvent) (hev : events.get? k = some ev) :
    dispatch events handlers k payload =
      (handlers k).map (fun h => (h, decodeFields ev.args payload)) := by
  have hf := find?_dispatchCasesFrom events 0 k ev hev
  rw [Nat.zero_add] at hf
  rw [dispatch, dispatchCases, hf]
  by_cases hh : (handlers k).length > 0
  · simp [hh]
  · have h0 : handlers k = [] := List.eq_nil_of_length_eq_zero (by omega)
    simp [hh, h0]

/-- Dispatching an opcode past the end of the event list is a no-op. -/
theorem dispatch_none (events : List GoEvent) (handlers : Nat → List Handler)
    (payload : List Nat) (m : Nat) (hm : events.length ≤ m) :
    dispatch events handlers m payload = [] := by
  rw [dispatch, dispatchCases, find?_dispatchCasesFrom_none events 0 m (by omega)]

/-- Decoding fills the record fields in argument declaration order. -/
theorem decodeFields_names (args : List GoArg) (vals : List Nat)
    (h : args.length ≤ vals.length) :
    (decodeFields args vals).map Prod.fst = args.map GoArg.name := by
  induction args generalizing vals with
  | nil => simp [decodeFields]
  | cons a t ih =>
    cases vals with
    | nil => simp at h
    | cons v vs => simp [decodeFields, ih vs (by simpa using h)]

/-- The generated event-record field name of an argument is its CamelCase
name. -/
theorem processEventArg_name (wlNames : List (String × String)) (a : Arg) :
    (processEventArg wlNames a).name = CamelCase a.name := by
  unfold processEventArg
  rcases wlTypes? a.type with _ | t
  · split_ifs <;> rfl
  · rfl

/-- The PName of an argument is its snakeCase name. -/
theorem processEventArg_pname (wlNames : List (String × String)) (a : Arg) :
    (processEventArg wlNames a).pname = snakeCase a.name := by
  unfold processEventArg
  rcases wlTypes? a.type with _ | t
  · split_ifs <;> rfl
  · rfl

/- ------------------------------------------------------------------ -/
/- Claim theorems.                                                     -/
/- ------------------------------------------------------------------ -/

/-- Claim C1: the generated request method at 0-based index k of the
Requests sequence sends with opcode exactly k, and the generated Dispatch
routes a wire event with opcode j to the event at 0-based index j of the
Events sequence; both statements hold for arbitrary input sequences, so
reordering the input changes the generated opcodes accordingly. -/
theorem C1_opcode_stability (wlNames : List (String × String)) (iface : Interface)
    (ifaceName : String) (k j : Nat) (r : GoRequest) (wlEv : Event)
    (handlers : Nat → List Handler) (payload : List Nat)
    (hr : (processRequests wlNames iface).get? k = some r)
    (hev : iface.events.get? j = some wlEv) :
    r.order = k ∧
    requestSendCall r =
      ("p.Context().sendRequest(p,") ++ toString k ++ r.args ++ (")") ∧
    dispatch (processEvents wlNames ifaceName iface) handlers j payload =
      (handlers j).map
        (fun h => (h, decodeFields (processEvent wlNames ifaceName wlEv).args payload)) := by
  rw [processRequests, processRequestsFrom_get? wlNames 0 k] at hr
  rcases hq : iface.requests.get? k with _ | req
  · rw [hq] at hr
    exact absurd hr (by simp)
  · rw [hq] at hr
    simp only [Option.map_some', Option.some.injEq] at hr
    have horder : r.order = k := by
      rw [← hr]
      simp [processRequest]
    refine ⟨horder, ?_, ?_⟩
    · rw [requestSendCall, horder]
    · have hev' : (processEvents wlNames ifaceName iface).get? j =
          some (processEvent wlNames ifaceName wlEv) := by
        rw [processEvents, List.get?_map, hev]
        rfl
      exact dispatch_eq_of_get? _ handlers payload j _ hev'

/-- Witness for C1 at a concrete two-request, one-event interface. -/
theorem C1_witness :
    c1ReqOut.order = 1 ∧
    requestSendCall c1ReqOut =
      ("p.Context().sendRequest(p,") ++ toString 1 ++ c1ReqOut.args ++ (")") ∧
    dispatch (processEvents [] ("Pointer") c1WIface) c1Handlers 0 [] =
      (c1Handlers 0).map
        (fun h => (h, decodeFields (processEvent [] ("Pointer") c1WEv).args [])) :=
  C1_opcode_stability [] c1WIface ("Pointer") 1 0 c1ReqOut c1WEv c1Handlers []
    (by decide) (by decide)

/-- Claim C2, counterexample: a typed new-object Arg whose interface
reference was never registered does not abort generation; the map lookup
yields the empty string and the generated code contains the empty type name
(an invalid return type `(* , error)` and constructor call `New(...)`). -/
theorem C2_counterexample :
    (processRequest [] 0 c2Req).returns = "(* , error)" ∧
    (processRequest [] 0 c2Req).newIdInterface = "" ∧
    requestBodyCode (processRequest [] 0 c2Req) =
      "ret := New(p.Context())\nreturn ret , p.Context().sendRequest(p,0,Proxy(ret))" := by
  decide

/-- Claim C2 as amended: for every request whose single Arg is a typed
new-object referencing an unregistered interface, generation proceeds and
silently emits the empty type name (there is no UnresolvedNameError path in
the generator). -/
theorem C2_unresolved_name_emitted (wlNames : List (String × String)) (order : Nat)
    (req : Request) (a : Arg)
    (hargs : req.args = [a]) (htype : a.type = "new_id") (hiface : a.iface ≠ "")
    (hunreg : mapGet wlNames a.iface = "") :
    (processRequest wlNames order req).returns = "(* , error)" ∧
    (processRequest wlNames order req).newIdInterface = "" := by
  unfold processRequest
  rw [hargs]
  simp only [List.foldl_cons, List.foldl_nil]
  unfold processArg
  rw [if_pos htype, if_pos hiface]
  simp [initReqAcc, hunreg, goJoin]

/-- Witness for C2 at the concrete unregistered reference. -/
theorem C2_witness :
    (processRequest [] 5 c2Req).returns = "(* , error)" ∧
    (processRequest [] 5 c2Req).newIdInterface = "" :=
  C2_unresolved_name_emitted [] 5 c2Req
    { name := "id", type := "new_id", iface := "xdg_surface", enum := "" }
    (by decide) (by decide) (by decide) (by decide)

/-- Claim C3: a request whose only new-object Arg carries an interface
reference generates a method returning the pair (pointer to that
interface's generated type, error); a request whose only new-object Arg
lacks the reference instead takes the three extra parameters iface string,
version uint32 and a caller-supplied Proxy at the Arg's position, and
returns only error. -/
theorem C3_new_object_branching (wlNames : List (String × String)) (order : Nat)
    (req : Request) (pre post : List Arg) (a : Arg)
    (hsplit : req.args = pre ++ a :: post)
    (hpre : ∀ b ∈ pre, b.type ≠ "new_id")
    (hpost : ∀ b ∈ post, b.type ≠ "new_id")
    (ha : a.type = "new_id") :
    (a.iface ≠ "" →
      (processRequest wlNames order req).returns =
        ("(*") ++ mapGet wlNames a.iface ++ (" , error)") ∧
      (processRequest wlNames order req).hasNewId = true) ∧
    (a.iface = "" →
      (processRequest wlNames order req).returns = "error" ∧
      (processRequest wlNames order req).hasNewId = false ∧
      (processRequest wlNames order req).params =
        goJoin (",") ((pre.map (paramDelta wlNames)).flatten ++
          ("iface string") :: ("version uint32") :: (a.name ++ (" Proxy")) ::
            (post.map (paramDelta wlNames)).flatten)) := by
  have hpreR : (pre.map (returnDelta wlNames)).flatten = [] :=
    flatten_map_eq_nil _ _ (fun b hb => returnDelta_eq_nil wlNames b (hpre b hb))
  have hpostR : (post.map (returnDelta wlNames)).flatten = [] :=
    flatten_map_eq_nil _ _ (fun b hb => returnDelta_eq_nil wlNames b (hpost b hb))
  have hpreF : pre.any newIdFlag = false := any_newIdFlag_false pre hpre
  have hpostF : post.any newIdFlag = false := any_newIdFlag_false post hpost
  constructor
  · intro hif
    have hda : returnDelta wlNames a = [("*") ++ mapGet wlNames a.iface] := by
      unfold returnDelta
      rw [if_pos ha, if_pos hif]
    have hfa : newIdFlag a = true := by
      unfold newIdFlag
      rw [if_pos ha, if_pos hif]
    constructor
    · rw [processRequest_returns, hsplit]
      simp [hda, hpreR, hpostR, goJoin]
      rw [← String.append_assoc]
      rfl
    · rw [processRequest_hasNewId, hsplit]
      simp [hfa, hpreF, hpostF]
  · intro hif
    have hda : returnDelta wlNames a = [] := by
      unfold returnDelta
      rw [if_pos ha, if_neg (by simpa using hif)]
    have hfa : newIdFlag a = false := by
      unfold newIdFlag
      rw [if_pos ha, if_neg (by simpa using hif)]
    have hpa : paramDelta wlNames a =
        [("iface string"), ("version uint32"), a.name ++ (" Proxy")] := by
      unfold paramDelta
      rw [if_pos ha, if_neg (by simpa using hif)]
    refine ⟨?_, ?_, ?_⟩
    · rw [processRequest_returns, hsplit]
      simp [hda, hpreR, hpostR]
    · rw [processRequest_hasNewId, hsplit]
      simp [hfa, hpreF, hpostF]
    · rw [processRequest_params, hsplit]
      simp [hpa]

/-- Witness for C3 at a concrete typed new-object request. -/
theorem C3_witness :
    (processRequest c3Names 0 c3ReqA).returns =
      ("(*") ++ mapGet c3Names ("wl_buffer") ++ (" , error)") ∧
    (processRequest c3Names 0 c3ReqA).hasNewId = true :=
  (C3_new_object_branching c3Names 0 c3ReqA [] []
      { name := "id", type := "new_id", iface := "wl_buffer", enum := "" }
      (by decide) (by simp) (by simp) (by decide)).1 (by decide)

/-- Claim C4, evaluated at the failing input: when a wire argument precedes
the typed new-object argument, ProcessRequests (wl-scanner.go) builds the
send-argument list from the params slice, so the generated call passes the
parameter declaration text "x uint32" instead of the wire argument x; the
requestBody loop of scanner.go, by contrast, passes the arguments in
declaration order. -/
theorem C4_send_args_divergence :
    (processRequest c4Names 0 c4Req).args = ",x uint32,Proxy(ret)" ∧
    requestBodyParams c4Names c4Req.args = [("x"), ("Proxy(ret)")] ∧
    (processRequest c4Names 0 c4Req).args ≠
      (",") ++ goJoin (",") (requestBodyParams c4Names c4Req.args) := by
  decide

/-- Claim C5: dispatching opcode k invokes exactly the registered handlers
of the event at index k, in registration order, with the record fields
decoded in Arg declaration order, and dispatching an opcode matching no
event is a silent no-op. -/
theorem C5_dispatch_correctness (events : List GoEvent) (handlers : Nat → List Handler)
    (payload : List Nat) (k m : Nat) (ev : GoEvent)
    (hev : events.get? k = some ev)
    (hargs : ev.args.length ≤ payload.length)
    (hm : events.length ≤ m) :
    dispatch events handlers k payload =
      (handlers k).map (fun h => (h, decodeFields ev.args payload)) ∧
    (decodeFields ev.args payload).map Prod.fst = ev.args.map GoArg.name ∧
    dispatch events handlers m payload = [] :=
  ⟨dispatch_eq_of_get? events handlers payload k ev hev,
   decodeFields_names ev.args payload hargs,
   dispatch_none events handlers payload m hm⟩

/-- Witness for C5 at a concrete two-event interface. -/
theorem C5_witness :
    dispatch c5Events c5Handlers 0 [7] =
      (c5Handlers 0).map (fun h => (h, decodeFields c5Ev0.args [7])) ∧
    (decodeFields c5Ev0.args [7]).map Prod.fst = c5Ev0.args.map GoArg.name ∧
    dispatch c5Events c5Handlers 9 [7] = [] :=
  C5_dispatch_correctness c5Events c5Handlers [7] 0 9 c5Ev0
    (by decide) (by decide) (by decide)

/-- Claim C6, counterexample: for the native name wl_wl_foo, registering
the form without the wl_ prefix (wl_foo) yields Foo while registering the
prefixed form yields WlFoo, so the prefix stripping is not idempotent for
every native name. -/
theorem C6_counterexample :
    (caseAndRegister [] (stripWl ("wl_wl_foo"))).2 ≠ (caseAndRegister [] ("wl_wl_foo")).2 ∧
    (caseAndRegister [] (stripWl ("wl_wl_foo"))).2 = "Foo" ∧
    (caseAndRegister [] ("wl_wl_foo")).2 = "WlFoo" := by
  decide

/-- Claim C6 as amended: registering wl_some_thing yields SomeThing, and
for every native name whose prefix-stripped form does not itself start with
wl_, registering the unprefixed form yields the same canonical name as
registering the prefixed form. -/
theorem C6_casing_and_stripping (m : List (String × String)) (n : String)
    (h : startsWithWl (stripWlL n.data) = false) :
    (caseAndRegister m ("wl_some_thing")).2 = "SomeThing" ∧
    (caseAndRegister m (stripWl n)).2 = (caseAndRegister m n).2 := by
  constructor
  · show CamelCase ("wl_some_thing") = "SomeThing"
    decide
  · show CamelCase (stripWl n) = CamelCase n
    have h2 : stripWlL (stripWlL n.data) = stripWlL n.data := by
      generalize ht : stripWlL n.data = t
      rw [ht] at h
      simp [stripWlL, h]
    have h3 : camelCaseL (stripWl n).data = camelCaseL n.data := by
      show camelCaseL (stripWlL n.data) = camelCaseL n.data
      unfold camelCaseL
      rw [h2]
    exact congrArg String.mk h3

/-- Witness for C6 at a concrete well-formed native name. -/
theorem C6_witness :
    (caseAndRegister [] ("wl_some_thing")).2 = "SomeThing" ∧
    (caseAndRegister [] (stripWl ("wl_pointer"))).2 = (caseAndRegister [] ("wl_pointer")).2 :=
  C6_casing_and_stripping [] ("wl_pointer") (by decide)

/-- Claim C7, counterexample: the field name of the generated event payload
record for the argument some_thing is the PascalCase SomeThing, not the
camelCase someThing that the distinct event-argument casing rule produces. -/
theorem C7_counterexample :
    eventStructFields (processEvent [] ("Pointer") c7Event) = [(("SomeThing"), ("uint32"))] ∧
    snakeCase ("some_thing") = "someThing" ∧
    (("SomeThing") : String) ≠ "someThing" := by
  decide

/-- Claim C7 as amended: the distinct camelCase rule (first segment kept
lower-case, later segments title-cased, same wl_ prefix stripped) is
computed for every event argument as its PName, and the event name's
camelCase form names the handler-list field, but the emitted event record
field names use the PascalCase rule. -/
theorem C7_event_arg_casing (wlNames : List (String × String)) (ifaceName : String)
    (wlEv : Event) :
    (processEvent wlNames ifaceName wlEv).pname = snakeCase wlEv.name ∧
    ((processEvent wlNames ifaceName wlEv).args).map GoArg.pname =
      wlEv.args.map (fun a => snakeCase a.name) ∧
    eventStructFields (processEvent wlNames ifaceName wlEv) =
      wlEv.args.map (fun a => (CamelCase a.name, (processEventArg wlNames a).type)) ∧
    snakeCase ("wl_some_thing") = "someThing" ∧
    CamelCase ("wl_some_thing") = "SomeThing" := by
  refine ⟨rfl, ?_, ?_, by decide, by decide⟩
  · simp [processEvent, List.map_map, Function.comp, processEventArg_pname]
  · simp [eventStructFields, processEvent, List.map_map, Function.comp, processEventArg_name]

/-- Claim C8, counterexample: in a run where the output was already written
and the formatter executable is present but the go fmt run fails, the
process terminates fatally (log.Fatalf), so formatter failure does affect
the exit outcome. -/
theorem C8_counterexample :
    fmtFile true false = FmtOutcome.fatalExit ∧
    mainTail true false = [Effect.writeOutput, Effect.exitFatal] := by
  decide

/-- Claim C8 as amended: the output is written before the formatting step
in every run; a missing formatter executable is only logged and the run
ends normally; a formatter run failure terminates the process fatally, the
written output staying in place. -/
theorem C8_format_failure_behavior (goFound fmtRunOk : Bool) :
    Effect.writeOutput ∈ mainTail goFound fmtRunOk ∧
    mainTail false fmtRunOk = [Effect.writeOutput, Effect.logSkip] ∧
    mainTail true false = [Effect.writeOutput, Effect.exitFatal] := by
  cases goFound <;> cases fmtRunOk <;> decide

/-- Claim C9, counterexample: the dotted enum reference "a." splits into
two parts of which one is empty, yet generation does not abort: it resolves
to the concatenation A of the canonicalized parts. -/
theorem C9_counterexample :
    enumArgName ("Pointer") ("a.") = GenResult.ok ("A") ∧
    enumArgName ("Pointer") ("a.") ≠ GenResult.fatal := by
  decide

/-- Claim C9 as amended: a dotted enum reference is fatal exactly when it
does not split on '.' into exactly two parts (parts may be empty); a
reference splitting into two parts resolves to the concatenation of the
canonicalized parts. -/
theorem C9_enum_reference_split (ifaceName enumName : String) (p0 p1 : List Char)
    (hdot : enumName.data.contains ('.') = true) :
    ((goSplit ('.') enumName.data).length ≠ 2 →
      enumArgName ifaceName enumName = GenResult.fatal) ∧
    (goSplit ('.') enumName.data = [p0, p1] →
      enumArgName ifaceName enumName = GenResult.ok (CamelCase ⟨p0⟩ ++ CamelCase ⟨p1⟩)) := by
  unfold enumArgName
  rw [if_pos hdot]
  constructor
  · intro hlen
    rcases hsp : goSplit ('.') enumName.data with _ | ⟨q0, _ | ⟨q1, _ | ⟨q2, l3⟩⟩⟩
    · rfl
    · rfl
    · rw [hsp] at hlen
      exact absurd rfl hlen
    · rfl
  · intro heq
    rw [heq]

/-- Witness for C9 at a concrete well-formed dotted reference. -/
theorem C9_witness :
    ((goSplit ('.') (("a.b" : String)).data).length ≠ 2 →
      enumArgName ("Pointer") ("a.b") = GenResult.fatal) ∧
    (goSplit ('.') (("a.b" : String)).data = [['a'], ['b']] →
      enumArgName ("Pointer") ("a.b") = GenResult.ok (CamelCase ⟨['a']⟩ ++ CamelCase ⟨['b']⟩)) :=
  C9_enum_reference_split ("Pointer") ("a.b") (['a']) (['b']) (by decide)

/-- Claim C10: the generated AddHandler appends only a non-nil handler (a
nil handler leaves the list unchanged), so a handler list that never held
nil never holds it, and Dispatch only invokes handlers present in the
matched event's list — it never invokes a nil handler passed to AddHandler. -/
theorem C10_nil_handler_guard (hs : List Handler) (h : Handler)
    (events : List GoEvent) (handlers : Nat → List Handler) (payload : List Nat)
    (k : Nat) (p : Handler × List (String × Nat))
    (hne : h ≠ Handler.nil) (hnil : Handler.nil ∉ hs)
    (hp : p ∈ dispatch events handlers k payload) :
    addHandler hs Handler.nil = hs ∧
    addHandler hs h = hs ++ [h] ∧
    Handler.nil ∉ addHandler hs h ∧
    p.1 ∈ handlers k := by
  refine ⟨by simp [addHandler], by rw [addHandler, if_pos hne], ?_, ?_⟩
  · rw [addHandler, if_pos hne]
    intro hmem
    rcases List.mem_append.1 hmem with hmem | hmem
    · exact hnil hmem
    · simp at hmem
      exact hne hmem.symm
  · rcases hk : events.get? k with _ | ev
    · have hlen : events.length ≤ k := List.get?_eq_none.1 hk
      rw [dispatch_none events handlers payload k hlen] at hp
      exact absurd hp (by simp)
    · rw [dispatch_eq_of_get? events handlers payload k ev hk] at hp
      rcases List.mem_map.1 hp with ⟨h1, hh1, hh2⟩
      rw [← hh2]
      exact hh1

/-- Witness for C10 at a concrete handler list and dispatch call. -/
theorem C10_witness :
    addHandler [Handler.mk 1] Handler.nil = [Handler.mk 1] ∧
    addHandler [Handler.mk 1] (Handler.mk 2) = [Handler.mk 1] ++ [Handler.mk 2] ∧
    Handler.nil ∉ addHandler [Handler.mk 1] (Handler.mk 2) ∧
    (Handler.mk 3, decodeFields c10Ev.args []).1 ∈ c10Handlers 0 :=
  C10_nil_handler_guard [Handler.mk 1] (Handler.mk 2) [c10Ev] c10Handlers [] 0
    (Handler.mk 3, decodeFields c10Ev.args []) (by decide) (by decide) (by decide)

end WlScanner
